import Mathlib

/-!
Verification development for the Claude Code Windows installer
(`claude_code_installer.py`).

The development has two layers:

* A command-level layer embedding the three probe functions whose internal
  logic the claims examine: `WSLManager.is_ubuntu_installed`,
  `ClaudeCodeManager.is_claude_installed` and `ContextMenuManager.is_installed`.
  Strings are modelled as `List Char`; an external command invocation is
  modelled by `CmdRes`, either an error (`FileNotFoundError`, timeout, or any
  other exception caught by the surrounding `except` blocks) or a completed
  run with an exit code and captured stdout.

* An orchestration-level layer embedding `ClaudeInstaller.install_full`,
  `install_context_menu_only`, `uninstall`, `show_status` and the console
  `main` dispatch.  The live host is abstracted to `HostSt`, one Boolean per
  probe-observable fact (WSL present, Ubuntu present, Claude present, the
  folder-background registry key, the sibling folder key, the launcher file).
  Each probe reads the corresponding fact; each mutating helper updates the
  facts it writes, with its success determined by an oracle field of `Env`
  (the embedding of "this external command succeeded").  Operator input at the
  three `input()` prompts is carried as raw characters in `Env` and compared
  via `confirms`, mirroring `input(...).lower() in ['y', 'yes']`.
  A run returns `RunOut`: the Python return value, the final host state, and
  the trace of externally visible stage events (probe calls, `apply()`
  invocations, `reverse()` invocations).  The constructors `Ev.skipped` and
  `Ev.permDenied` exist so that the spec's `SkippedUnmetDependency` and
  `PermissionDenied` per-stage outcomes can be stated; the embedded code never
  emits them, because the source never records such outcomes.
-/

/-- The four stages of the chain, in chain order: the virtualization layer
(WSL), the guest distribution (Ubuntu), the application runtime plus app
(Claude Code), and the shell integration (context menu). -/
inductive StageId
  | wsl
  | ubuntu
  | claude
  | ctx
deriving DecidableEq, Fintype

/-- Ordinal position of a stage in the dependency chain. -/
def StageId.pos : StageId → Nat
  | .wsl => 0
  | .ubuntu => 1
  | .claude => 2
  | .ctx => 3

/-- Externally visible stage events of a run.  `probe`, `applyStage` and
`reverseStage` are emitted by the embedded code; `skipped` and `permDenied`
are the spec's `SkippedUnmetDependency` / `PermissionDenied` per-stage
outcomes, stated here so claims about them can be formalised (the source
never records either). -/
inductive Ev
  | probe (s : StageId) (sat : Bool)
  | applyStage (s : StageId) (ok : Bool)
  | reverseStage (s : StageId) (ok : Bool)
  | skipped (s : StageId)
  | permDenied (s : StageId)
deriving DecidableEq

/-- The stage an event concerns. -/
def Ev.stageOf : Ev → StageId
  | .probe s _ => s
  | .applyStage s _ => s
  | .reverseStage s _ => s
  | .skipped s => s
  | .permDenied s => s

/-- Whether an event is a probe (a read-only check). -/
def Ev.isProbe : Ev → Bool
  | .probe _ _ => true
  | _ => false

/-- Whether a trace contains any event concerning stage `s`. -/
def mentions (tr : List Ev) (s : StageId) : Bool :=
  tr.any (fun e => e.stageOf == s)

/-- Whether a trace contains an `apply()` invocation of stage `s`. -/
def appliedIn (tr : List Ev) (s : StageId) : Bool :=
  tr.any (fun e => match e with
    | Ev.applyStage s2 _ => s2 == s
    | _ => false)

/-- Number of `apply()` invocations of stage `s` in a trace. -/
def applyCount (tr : List Ev) (s : StageId) : Nat :=
  (tr.filter (fun e => match e with
    | Ev.applyStage s2 _ => s2 == s
    | _ => false)).length

/-- Result of one external command: `err` when the executable is missing, the
command times out, or any other exception is raised (all are caught by the
callers' `except` blocks); `ok` when the process completed with an exit code
and captured stdout. -/
inductive CmdRes
  | err
  | ok (exitCode : Nat) (out : List Char)
deriving DecidableEq

/-- The NUL character stripped from `wsl -l -v` output
(`result.stdout.replace('\x00', '')`). -/
def nulChar : Char := Char.ofNat 0

/-- Embedding of Python `s.replace('\x00', '')`. -/
def removeNul (s : List Char) : List Char :=
  s.filter (fun c => !(c == nulChar))

/-- Left half of Python `s.strip()`: drop leading whitespace. -/
def lstrip (s : List Char) : List Char :=
  s.dropWhile Char.isWhitespace

/-- Right half of Python `s.strip()`: drop trailing whitespace. -/
def rstrip (s : List Char) : List Char :=
  (s.reverse.dropWhile Char.isWhitespace).reverse

/-- Embedding of Python `s.strip()` (whitespace at both ends). -/
def pyStrip (s : List Char) : List Char :=
  rstrip (lstrip s)

/-- Embedding of Python `s.lower()`. -/
def pyLower (s : List Char) : List Char :=
  s.map Char.toLower

/-- The target distro name searched for in the distribution listing. -/
def ubuntuChars : List Char := ['u', 'b', 'u', 'n', 't', 'u']

/-- Embedding of `WSLManager.is_ubuntu_installed`: run `wsl -l -v`
(`check=False`); on a completed run with exit code 0, strip NUL bytes, strip
surrounding whitespace, lower-case, and test whether `'ubuntu'` occurs as a
substring; any other outcome (non-zero exit, missing tool, exception) yields
`false`. -/
def is_ubuntu_installed (r : CmdRes) : Bool :=
  match r with
  | .err => false
  | .ok exitCode out =>
    if exitCode = 0 then
      if ubuntuChars <:+: pyLower (pyStrip (removeNul out)) then true else false
    else false

/-- Embedding of `ClaudeCodeManager.is_claude_installed`: phase 1 runs
`wsl -d Ubuntu bash -ic 'which claude'`; if it completed with exit code 0 and
its stdout is truthy after `.strip()`, the probe is satisfied.  Otherwise
phase 2 runs `wsl -d Ubuntu bash -ic 'claude --version'` and the probe is
satisfied iff it completed with exit code 0.  An exception in either phase
yields `false` (phase 2 is never reached when phase 1 raises). -/
def is_claude_installed (r1 r2 : CmdRes) : Bool :=
  match r1 with
  | .err => false
  | .ok e1 o1 =>
    if e1 = 0 && !(pyStrip o1).isEmpty then true
    else
      match r2 with
      | .err => false
      | .ok e2 _ => e2 == 0

/-- Registry path of the folder-background context-menu entry, the only key
`ContextMenuManager.is_installed` opens. -/
def bgKeyPath : String := "Directory\\Background\\shell\\OpenInClaude"

/-- Registry path of the sibling entry for right-clicking a folder itself;
written by `install_context_menu` but never consulted by `is_installed`. -/
def folderKeyPath : String := "Directory\\shell\\OpenInClaude"

/-- Opening a registry key succeeds iff the key is present in the registry
(modelled as the list of existing key paths). -/
def openKeyOk (reg : List String) (k : String) : Bool :=
  reg.contains k

/-- Embedding of `ContextMenuManager.is_installed`: try to open
`Directory\Background\shell\OpenInClaude` under HKCR; `true` iff the open
succeeds (a failed open raises `WindowsError`, caught to return `False`). -/
def is_installed (reg : List String) : Bool :=
  openKeyOk reg bgKeyPath

/-- Probe-observable host facts for the orchestration layer: WSL present
(`wsl --version` exits 0), Ubuntu present (the distro listing names it),
Claude Code present (the two-phase probe succeeds), the folder-background
registry key, the sibling folder registry key, and the launcher script file. -/
structure HostSt where
  wsl : Bool
  ubuntu : Bool
  claude : Bool
  ctxBg : Bool
  ctxFolder : Bool
  launcher : Bool
deriving DecidableEq

/-- Oracle for one console run: the elevation check, the interpreter version
check, the success of each external mutating operation, and the operator's
raw answers at the three `input()` prompts. -/
structure Env where
  admin : Bool
  pythonOk : Bool
  installWslOk : Bool
  installUbuntuOk : Bool
  setupOk : Bool
  installClaudeOk : Bool
  launcherOk : Bool
  regWriteOk : Bool
  removeOk : Bool
  restartAns : List Char
  updateAns : List Char
  contAns : List Char
deriving DecidableEq

/-- Embedding of `input(...).lower() in ['y', 'yes']`. -/
def confirms (s : List Char) : Bool :=
  pyLower s == ['y'] || pyLower s == ['y', 'e', 's']

/-- Result of one console-mode run: the Python boolean return value, the
final host state, and the trace of stage events the run performed. -/
structure RunOut where
  ok : Bool
  st : HostSt
  tr : List Ev
deriving DecidableEq

/-- Orchestration-level view of `WSLManager.is_wsl_installed`. -/
def probeWsl (st : HostSt) : Bool := st.wsl

/-- Orchestration-level view of `WSLManager.is_ubuntu_installed`. -/
def probeUbuntu (st : HostSt) : Bool := st.ubuntu

/-- Orchestration-level view of `ClaudeCodeManager.is_claude_installed`. -/
def probeClaude (st : HostSt) : Bool := st.claude

/-- Orchestration-level view of `ContextMenuManager.is_installed`: it reads
only the folder-background registry key. -/
def probeCtx (st : HostSt) : Bool := st.ctxBg

/-- Embedding of `WSLManager.install_wsl` (`wsl --install --no-launch`). -/
def install_wsl (env : Env) (st : HostSt) : Bool × HostSt :=
  if env.installWslOk then (true, { st with wsl := true }) else (false, st)

/-- Embedding of `WSLManager.install_ubuntu`
(`wsl --install -d Ubuntu --no-launch`). -/
def install_ubuntu (env : Env) (st : HostSt) : Bool × HostSt :=
  if env.installUbuntuOk then (true, { st with ubuntu := true }) else (false, st)

/-- Embedding of `WSLManager.setup_ubuntu_environment` (apt update/upgrade,
base packages, Node.js).  It installs prerequisites inside the guest but does
not install Claude Code itself, so no probe-observable fact changes. -/
def setup_ubuntu_environment (env : Env) (st : HostSt) : Bool × HostSt :=
  if env.setupOk then (true, st) else (false, st)

/-- Embedding of `ClaudeCodeManager.install_claude_code`
(npm install of the app inside the guest). -/
def install_claude_code (env : Env) (st : HostSt) : Bool × HostSt :=
  if env.installClaudeOk then (true, { st with claude := true }) else (false, st)

/-- Embedding of `ContextMenuManager.install_context_menu`: first write the
launcher script (failure aborts with `False` and no registry change), then
create both registry entries.  A registry failure leaves the already-written
launcher in place (no rollback in the source). -/
def install_context_menu (env : Env) (st : HostSt) : Bool × HostSt :=
  if env.launcherOk then
    if env.regWriteOk then
      (true, { st with launcher := true, ctxBg := true, ctxFolder := true })
    else (false, { st with launcher := true })
  else (false, st)

/-- Embedding of `ContextMenuManager.uninstall_context_menu`: delete both
registry entries, the launcher file, and the directory if empty. -/
def uninstall_context_menu (env : Env) (st : HostSt) : Bool × HostSt :=
  if env.removeOk then
    (true, { st with ctxBg := false, ctxFolder := false, launcher := false })
  else (false, st)

/-- Embedding of `ClaudeInstaller.check_prerequisites`: `is_admin()` must
return true, then the interpreter version must be at least 3.6 (the Windows
version lookup only warns and cannot fail the check). -/
def check_prerequisites (env : Env) : Bool :=
  env.admin && env.pythonOk

/-- Tail of `install_full` from the ShellIntegration (context menu) stage:
probe `is_installed`; when unsatisfied run `install_context_menu` and abort
on failure; when satisfied offer the update prompt and, on a confirming
answer, run `uninstall_context_menu` then `install_context_menu`, ignoring
both results; then report success. -/
def installFromCtx (env : Env) (st : HostSt) (tr : List Ev) : RunOut :=
  if probeCtx st then
    if confirms env.updateAns then
      let ru := uninstall_context_menu env st
      let ri := install_context_menu env ru.2
      ⟨true, ri.2, tr ++ [Ev.probe .ctx true, Ev.reverseStage .ctx ru.1,
        Ev.applyStage .ctx ri.1]⟩
    else ⟨true, st, tr ++ [Ev.probe .ctx true]⟩
  else
    let r := install_context_menu env st
    ⟨r.1, r.2, tr ++ [Ev.probe .ctx false, Ev.applyStage .ctx r.1]⟩

/-- Tail of `install_full` from the second `is_claude_installed` call: when
unsatisfied run `install_claude_code` and abort on failure. -/
def installFromClaude2 (env : Env) (st : HostSt) (tr : List Ev) : RunOut :=
  if probeClaude st then installFromCtx env st (tr ++ [Ev.probe .claude true])
  else
    let r := install_claude_code env st
    if r.1 then
      installFromCtx env r.2 (tr ++ [Ev.probe .claude false, Ev.applyStage .claude r.1])
    else ⟨false, r.2, tr ++ [Ev.probe .claude false, Ev.applyStage .claude false]⟩

/-- Tail of `install_full` from the Claude stage: the first
`is_claude_installed` call gates `setup_ubuntu_environment` (a setup failure
aborts the run and counts as a failed `apply()` of this stage, since setup is
the first half of the stage's install sequence). -/
def installFromClaude (env : Env) (st : HostSt) (tr : List Ev) : RunOut :=
  if probeClaude st then installFromClaude2 env st (tr ++ [Ev.probe .claude true])
  else
    let r := setup_ubuntu_environment env st
    if r.1 then installFromClaude2 env r.2 (tr ++ [Ev.probe .claude false])
    else ⟨false, r.2, tr ++ [Ev.probe .claude false, Ev.applyStage .claude false]⟩

/-- Tail of `install_full` from the Ubuntu stage: probe, install when
missing, abort on failure. -/
def installFromUbuntu (env : Env) (st : HostSt) (tr : List Ev) : RunOut :=
  if probeUbuntu st then installFromClaude env st (tr ++ [Ev.probe .ubuntu true])
  else
    let r := install_ubuntu env st
    if r.1 then
      installFromClaude env r.2 (tr ++ [Ev.probe .ubuntu false, Ev.applyStage .ubuntu r.1])
    else ⟨false, r.2, tr ++ [Ev.probe .ubuntu false, Ev.applyStage .ubuntu false]⟩

/-- Embedding of `ClaudeInstaller.install_full`: prerequisites, then the WSL
stage (with the restart prompt after a fresh WSL install: a confirming answer
aborts the run), then the Ubuntu, Claude and context-menu stages in order.
Any stage failure returns `False` immediately. -/
def install_full (env : Env) (st : HostSt) : RunOut :=
  if check_prerequisites env then
    if probeWsl st then installFromUbuntu env st [Ev.probe .wsl true]
    else
      let r := install_wsl env st
      if r.1 then
        if confirms env.restartAns then
          ⟨false, r.2, [Ev.probe .wsl false, Ev.applyStage .wsl true]⟩
        else installFromUbuntu env r.2 [Ev.probe .wsl false, Ev.applyStage .wsl true]
      else ⟨false, r.2, [Ev.probe .wsl false, Ev.applyStage .wsl false]⟩
  else ⟨false, st, []⟩

/-- Embedding of `ClaudeInstaller.install_context_menu_only`: prerequisites,
then probe Claude Code only; when that probe is unsatisfied, warn and ask the
operator whether to continue, returning `False` without any apply on a
non-confirming answer; otherwise run `install_context_menu` and return its
result.  The WSL and Ubuntu probes are never consulted. -/
def install_context_menu_only (env : Env) (st : HostSt) : RunOut :=
  if check_prerequisites env then
    if probeClaude st then
      let r := install_context_menu env st
      ⟨r.1, r.2, [Ev.probe .claude true, Ev.applyStage .ctx r.1]⟩
    else
      if confirms env.contAns then
        let r := install_context_menu env st
        ⟨r.1, r.2, [Ev.probe .claude false, Ev.applyStage .ctx r.1]⟩
      else ⟨false, st, [Ev.probe .claude false]⟩
  else ⟨false, st, []⟩

/-- Embedding of `ClaudeInstaller.uninstall`: prerequisites, then probe
`is_installed`; when unsatisfied return `True` immediately (no-op), otherwise
run `uninstall_context_menu` and return its result. -/
def uninstall (env : Env) (st : HostSt) : RunOut :=
  if check_prerequisites env then
    if probeCtx st then
      let r := uninstall_context_menu env st
      ⟨r.1, r.2, [Ev.probe .ctx true, Ev.reverseStage .ctx r.1]⟩
    else ⟨true, st, [Ev.probe .ctx false]⟩
  else ⟨false, st, []⟩

/-- Embedding of `ClaudeInstaller.show_status`: probe all four stages in
chain order; when the Ubuntu probe is unsatisfied, re-run the (read-only)
distribution listing once more for the debug printout.  No apply or reverse
is ever invoked and the host state is not touched. -/
def show_status (st : HostSt) : List Ev :=
  [Ev.probe .wsl (probeWsl st), Ev.probe .ubuntu (probeUbuntu st)]
    ++ (if probeUbuntu st then [] else [Ev.probe .ubuntu false])
    ++ [Ev.probe .claude (probeClaude st), Ev.probe .ctx (probeCtx st)]

/-- Sample oracle: elevated, interpreter ok, every external operation
succeeds, every prompt answered `n`. -/
def envA : Env :=
  ⟨true, true, true, true, true, true, true, true, true, ['n'], ['n'], ['n']⟩

/-- Sample oracle: like `envA` but the operator confirms the update prompt
with `y`. -/
def envB : Env :=
  { envA with updateAns := ['y'] }

/-- Sample oracle: not elevated, everything else as in `envA`. -/
def envPD : Env :=
  { envA with admin := false }

/-- Sample oracle: like `envA` but installing WSL fails. -/
def envWslFail : Env :=
  { envA with installWslOk := false }

/-- Sample oracle: like `envA` but the operator confirms the
continue-anyway prompt with `yes`. -/
def envYes : Env :=
  { envA with contAns := ['y', 'e', 's'] }

/-- Sample host with nothing installed. -/
def stEmpty : HostSt :=
  ⟨false, false, false, false, false, false⟩

/-- Sample host with everything installed. -/
def stFull : HostSt :=
  ⟨true, true, true, true, true, true⟩

/-- The four console modes selected by the CLI flags. -/
inductive Mode
  | statusM
  | uninstallM
  | contextOnlyM
  | fullM
deriving DecidableEq

/-- Embedding of the console dispatch in `main`: `--status` calls
`show_status` and falls through to a normal exit (code 0); the three mutating
modes exit 0 on `True` and 1 on `False`. -/
def mainRun (m : Mode) (env : Env) (st : HostSt) : Nat × HostSt × List Ev :=
  match m with
  | .statusM => (0, st, show_status st)
  | .uninstallM =>
    let r := uninstall env st
    (if r.ok then 0 else 1, r.st, r.tr)
  | .contextOnlyM =>
    let r := install_context_menu_only env st
    (if r.ok then 0 else 1, r.st, r.tr)
  | .fullM =>
    let r := install_full env st
    (if r.ok then 0 else 1, r.st, r.tr)

/-- Helper: a successful context-menu tail with the update prompt declined
leaves the first three probe facts untouched and the background key present. -/
theorem ctx_ok_decline (env : Env) (st : HostSt) (tr : List Ev)
    (hu : confirms env.updateAns = false)
    (hok : (installFromCtx env st tr).ok = true) :
    (installFromCtx env st tr).st.wsl = st.wsl ∧
    (installFromCtx env st tr).st.ubuntu = st.ubuntu ∧
    (installFromCtx env st tr).st.claude = st.claude ∧
    (installFromCtx env st tr).st.ctxBg = true := by
  simp only [installFromCtx, install_context_menu, uninstall_context_menu, probeCtx]
    at hok ⊢
  split_ifs at hok ⊢ <;> simp_all

/-- Helper: a successful tail from the second Claude probe, update declined,
ends with Claude present and the background key present. -/
theorem claude2_ok_decline (env : Env) (st : HostSt) (tr : List Ev)
    (hu : confirms env.updateAns = false)
    (hok : (installFromClaude2 env st tr).ok = true) :
    (installFromClaude2 env st tr).st.wsl = st.wsl ∧
    (installFromClaude2 env st tr).st.ubuntu = st.ubuntu ∧
    (installFromClaude2 env st tr).st.claude = true ∧
    (installFromClaude2 env st tr).st.ctxBg = true := by
  simp only [installFromClaude2, install_claude_code, probeClaude] at hok ⊢
  split_ifs at hok ⊢ <;>
    first
    | (simp_all; done)
    | (have hres := ctx_ok_decline env st (tr ++ [Ev.probe .claude true]) hu hok
       simp_all; done)
    | (have hres := ctx_ok_decline env { st with claude := true }
        (tr ++ [Ev.probe .claude false, Ev.applyStage .claude true]) hu hok
       simp_all; done)

/-- Helper: a successful tail from the first Claude probe, update declined,
ends with Claude present and the background key present. -/
theorem claude_ok_decline (env : Env) (st : HostSt) (tr : List Ev)
    (hu : confirms env.updateAns = false)
    (hok : (installFromClaude env st tr).ok = true) :
    (installFromClaude env st tr).st.wsl = st.wsl ∧
    (installFromClaude env st tr).st.ubuntu = st.ubuntu ∧
    (installFromClaude env st tr).st.claude = true ∧
    (installFromClaude env st tr).st.ctxBg = true := by
  simp only [installFromClaude, setup_ubuntu_environment, probeClaude] at hok ⊢
  split_ifs at hok ⊢ <;>
    first
    | (simp_all; done)
    | (have hres := claude2_ok_decline env st (tr ++ [Ev.probe .claude true]) hu hok
       simp_all; done)
    | (have hres := claude2_ok_decline env st (tr ++ [Ev.probe .claude false]) hu hok
       simp_all; done)

/-- Helper: a successful tail from the Ubuntu stage, update declined, ends
with Ubuntu, Claude and the background key present. -/
theorem ubuntu_ok_decline (env : Env) (st : HostSt) (tr : List Ev)
    (hu : confirms env.updateAns = false)
    (hok : (installFromUbuntu env st tr).ok = true) :
    (installFromUbuntu env st tr).st.wsl = st.wsl ∧
    (installFromUbuntu env st tr).st.ubuntu = true ∧
    (installFromUbuntu env st tr).st.claude = true ∧
    (installFromUbuntu env st tr).st.ctxBg = true := by
  simp only [installFromUbuntu, install_ubuntu, probeUbuntu] at hok ⊢
  split_ifs at hok ⊢ <;>
    first
    | (simp_all; done)
    | (have hres := claude_ok_decline env st (tr ++ [Ev.probe .ubuntu true]) hu hok
       simp_all; done)
    | (have hres := claude_ok_decline env { st with ubuntu := true }
        (tr ++ [Ev.probe .ubuntu false, Ev.applyStage .ubuntu true]) hu hok
       simp_all; done)

/-- Helper: a successful full install with the update prompt declined leaves
all four probe facts satisfied. -/
theorem install_full_ok_decline (env : Env) (st : HostSt)
    (hu : confirms env.updateAns = false)
    (hok : (install_full env st).ok = true) :
    (install_full env st).st.wsl = true ∧
    (install_full env st).st.ubuntu = true ∧
    (install_full env st).st.claude = true ∧
    (install_full env st).st.ctxBg = true := by
  simp only [install_full, install_wsl, check_prerequisites, probeWsl] at hok ⊢
  split_ifs at hok ⊢ <;>
    first
    | (simp_all; done)
    | (have hres := ubuntu_ok_decline env st [Ev.probe .wsl true] hu hok
       simp_all; done)
    | (have hres := ubuntu_ok_decline env { st with wsl := true }
        [Ev.probe .wsl false, Ev.applyStage .wsl true] hu hok
       simp_all; done)

/-- C3 (counterexample): full install is not idempotent as claimed.  After a
fully successful first run from an empty host, a second run with no external
state change finds every probe satisfied, but when the operator confirms the
"update the existing installation?" prompt the ShellIntegration `apply()` is
invoked again, contradicting "no apply() is invoked". -/
theorem C3_counterexample :
    (install_full envA stEmpty).ok = true ∧
    (install_full envB (install_full envA stEmpty).st).ok = true ∧
    appliedIn (install_full envB (install_full envA stEmpty).st).tr StageId.ctx = true := by
  decide

/-- C3 (amended): running full install a second time right after a successful
run, with no external state change, reports every probe satisfied, invokes no
apply() and succeeds, provided the operator declines the update prompt in
both runs (and the second run passes the prerequisite check); a confirming
answer at that prompt instead re-runs the ShellIntegration reverse() and
apply(). -/
theorem C3_idempotent_amended (env1 env2 : Env) (st0 : HostSt)
    (h1 : confirms env1.updateAns = false)
    (h2 : confirms env2.updateAns = false)
    (hpre : check_prerequisites env2 = true)
    (hok : (install_full env1 st0).ok = true) :
    install_full env2 (install_full env1 st0).st =
      ⟨true, (install_full env1 st0).st,
        [Ev.probe .wsl true, Ev.probe .ubuntu true, Ev.probe .claude true,
         Ev.probe .claude true, Ev.probe .ctx true]⟩ := by
  obtain ⟨hw, hu, hc, hx⟩ := install_full_ok_decline env1 st0 h1 hok
  generalize (install_full env1 st0).st = st1 at hw hu hc hx ⊢
  simp [install_full, installFromUbuntu, installFromClaude, installFromClaude2,
    installFromCtx, probeWsl, probeUbuntu, probeClaude, probeCtx, hpre, hw, hu,
    hc, hx, h2]

/-- C3 (witness): the amended idempotence theorem at a concrete input. -/
theorem C3_idempotent_amended_witness :
    install_full envA (install_full envA stEmpty).st =
      ⟨true, (install_full envA stEmpty).st,
        [Ev.probe .wsl true, Ev.probe .ubuntu true, Ev.probe .claude true,
         Ev.probe .claude true, Ev.probe .ctx true]⟩ :=
  C3_idempotent_amended envA envA stEmpty (by decide) (by decide) (by decide)
    (by decide)

/-- Helper: a stage not mentioned in a trace has no events there. -/
theorem not_mentions_facts (tr : List Ev) (s : StageId) (h : mentions tr s = false) :
    (∀ b, Ev.probe s b ∉ tr) ∧ (∀ b, Ev.applyStage s b ∉ tr) ∧
    (∀ b, Ev.reverseStage s b ∉ tr) ∧ Ev.skipped s ∉ tr ∧
    appliedIn tr s = false ∧ applyCount tr s = 0 := by
  simp only [mentions, List.any_eq_false, beq_iff_eq] at h
  refine ⟨fun b hb => ?_, fun b hb => ?_, fun b hb => ?_, fun hb => ?_, ?_, ?_⟩
  · exact h _ hb (by simp [Ev.stageOf])
  · exact h _ hb (by simp [Ev.stageOf])
  · exact h _ hb (by simp [Ev.stageOf])
  · exact h _ hb (by simp [Ev.stageOf])
  · simp only [appliedIn, List.any_eq_false]
    intro e he
    cases e <;> simp_all [Ev.stageOf]
    intro hs
    exact (h _ he) (by simp [Ev.stageOf, hs])
  · simp only [applyCount, List.length_eq_zero, List.filter_eq_nil_iff]
    intro e he
    cases e <;> simp_all [Ev.stageOf]
    intro hs
    exact (h _ he) (by simp [Ev.stageOf, hs])

/-- Helper: mention in an appended trace. -/
theorem mentions_append (a b : List Ev) (s : StageId) :
    mentions (a ++ b) s = (mentions a s || mentions b s) := by
  simp [mentions]

set_option maxHeartbeats 2000000 in
/-- C1 chain, context-menu level. -/
theorem C1_ctx (env : Env) (st : HostSt) (tr : List Ev) (s s2 : StageId)
    (hnc : mentions tr .ctx = false)
    (hsk : Ev.skipped s2 ∉ tr)
    (hcl : ∀ s3, Ev.probe s3 false ∈ tr → Ev.applyStage s3 false ∈ tr → False)
    (h1 : Ev.probe s false ∈ (installFromCtx env st tr).tr)
    (h2 : Ev.applyStage s false ∈ (installFromCtx env st tr).tr) :
    (installFromCtx env st tr).ok = false ∧
    (s.pos < s2.pos → mentions (installFromCtx env st tr).tr s2 = false) ∧
    Ev.skipped s2 ∉ (installFromCtx env st tr).tr := by
  obtain ⟨hp, ha, hr, hs, -, -⟩ := not_mentions_facts tr .ctx hnc
  have hclw := hcl StageId.wsl
  have hclu := hcl StageId.ubuntu
  have hclc := hcl StageId.claude
  have hclx := hcl StageId.ctx
  have hpf := hp false
  have haf := ha false
  simp only [installFromCtx, install_context_menu, uninstall_context_menu, probeCtx]
    at h1 h2 ⊢
  cases s <;> cases s2 <;> split_ifs at h1 h2 ⊢ <;>
    simp_all [StageId.pos, mentions_append, mentions]

/-- C1 chain, second-Claude-probe level. -/
theorem C1_claude2 (env : Env) (st : HostSt) (tr : List Ev) (s s2 : StageId)
    (hnx : mentions tr .ctx = false)
    (hac : ∀ b, Ev.applyStage .claude b ∉ tr)
    (hsk : Ev.skipped s2 ∉ tr)
    (hcl : ∀ s3, Ev.probe s3 false ∈ tr → Ev.applyStage s3 false ∈ tr → False)
    (h1 : Ev.probe s false ∈ (installFromClaude2 env st tr).tr)
    (h2 : Ev.applyStage s false ∈ (installFromClaude2 env st tr).tr) :
    (installFromClaude2 env st tr).ok = false ∧
    (s.pos < s2.pos → mentions (installFromClaude2 env st tr).tr s2 = false) ∧
    Ev.skipped s2 ∉ (installFromClaude2 env st tr).tr := by
  simp only [installFromClaude2, install_claude_code, probeClaude] at h1 h2 ⊢
  split_ifs at h1 h2 ⊢ <;>
    first
    | (exact C1_ctx env _ (tr ++ [Ev.probe .claude true]) s s2
        (by simp only [mentions_append, hnx]; decide)
        (by simp [hsk])
        (by intro s3 hx hy
            simp at hx hy
            exact hcl s3 hx hy)
        h1 h2)
    | (exact C1_ctx env _
        (tr ++ [Ev.probe .claude false, Ev.applyStage .claude true]) s s2
        (by simp only [mentions_append, hnx]; decide)
        (by simp [hsk])
        (by intro s3 hx hy
            simp at hx hy
            rcases hx with hx | rfl
            · exact hcl s3 hx hy
            · exact hac false hy)
        h1 h2)
    | (simp at h1 h2
       rcases h2 with h2 | rfl
       · rcases h1 with h1 | rfl
         · exact (hcl s h1 h2).elim
         · exact (hac false h2).elim
       · refine ⟨rfl, fun hlt => ?_, by simp [hsk]⟩
         cases s2 <;> simp only [StageId.pos] at hlt <;>
           first
           | omega
           | (simp only [mentions_append, hnx]; decide))
    | (simp_all; done)

/-- C1 chain, first-Claude-probe level. -/
theorem C1_claude (env : Env) (st : HostSt) (tr : List Ev) (s s2 : StageId)
    (hncC : mentions tr .claude = false)
    (hnx : mentions tr .ctx = false)
    (hsk : Ev.skipped s2 ∉ tr)
    (hcl : ∀ s3, Ev.probe s3 false ∈ tr → Ev.applyStage s3 false ∈ tr → False)
    (h1 : Ev.probe s false ∈ (installFromClaude env st tr).tr)
    (h2 : Ev.applyStage s false ∈ (installFromClaude env st tr).tr) :
    (installFromClaude env st tr).ok = false ∧
    (s.pos < s2.pos → mentions (installFromClaude env st tr).tr s2 = false) ∧
    Ev.skipped s2 ∉ (installFromClaude env st tr).tr := by
  obtain ⟨hpc, hacp, -, -, -, -⟩ := not_mentions_facts tr .claude hncC
  simp only [installFromClaude, setup_ubuntu_environment, probeClaude] at h1 h2 ⊢
  split_ifs at h1 h2 ⊢ <;>
    first
    | (exact C1_claude2 env _ (tr ++ [Ev.probe .claude true]) s s2
        (by simp only [mentions_append, hnx]; decide)
        (by intro b; simp [hacp b])
        (by simp [hsk])
        (by intro s3 hx hy
            simp at hx hy
            exact hcl s3 hx hy)
        h1 h2)
    | (exact C1_claude2 env _ (tr ++ [Ev.probe .claude false]) s s2
        (by simp only [mentions_append, hnx]; decide)
        (by intro b; simp [hacp b])
        (by simp [hsk])
        (by intro s3 hx hy
            simp at hx hy
            rcases hx with hx | rfl
            · exact hcl s3 hx hy
            · exact hacp false hy)
        h1 h2)
    | (simp at h1 h2
       rcases h2 with h2 | rfl
       · rcases h1 with h1 | rfl
         · exact (hcl s h1 h2).elim
         · exact (hacp false h2).elim
       · refine ⟨rfl, fun hlt => ?_, by simp [hsk]⟩
         cases s2 <;> simp only [StageId.pos] at hlt <;>
           first
           | omega
           | (simp only [mentions_append, hnx]; decide))
    | (simp_all; done)

/-- C1 chain, Ubuntu level. -/
theorem C1_ubuntu (env : Env) (st : HostSt) (tr : List Ev) (s s2 : StageId)
    (hncU : mentions tr .ubuntu = false)
    (hncC : mentions tr .claude = false)
    (hnx : mentions tr .ctx = false)
    (hsk : Ev.skipped s2 ∉ tr)
    (hcl : ∀ s3, Ev.probe s3 false ∈ tr → Ev.applyStage s3 false ∈ tr → False)
    (h1 : Ev.probe s false ∈ (installFromUbuntu env st tr).tr)
    (h2 : Ev.applyStage s false ∈ (installFromUbuntu env st tr).tr) :
    (installFromUbuntu env st tr).ok = false ∧
    (s.pos < s2.pos → mentions (installFromUbuntu env st tr).tr s2 = false) ∧
    Ev.skipped s2 ∉ (installFromUbuntu env st tr).tr := by
  obtain ⟨hpu, hau, -, -, -, -⟩ := not_mentions_facts tr .ubuntu hncU
  simp only [installFromUbuntu, install_ubuntu, probeUbuntu] at h1 h2 ⊢
  split_ifs at h1 h2 ⊢ <;>
    first
    | (exact C1_claude env _ (tr ++ [Ev.probe .ubuntu true]) s s2
        (by simp only [mentions_append, hncC]; decide)
        (by simp only [mentions_append, hnx]; decide)
        (by simp [hsk])
        (by intro s3 hx hy
            simp at hx hy
            exact hcl s3 hx hy)
        h1 h2)
    | (exact C1_claude env _
        (tr ++ [Ev.probe .ubuntu false, Ev.applyStage .ubuntu true]) s s2
        (by simp only [mentions_append, hncC]; decide)
        (by simp only [mentions_append, hnx]; decide)
        (by simp [hsk])
        (by intro s3 hx hy
            simp at hx hy
            rcases hx with hx | rfl
            · exact hcl s3 hx hy
            · exact hau false hy)
        h1 h2)
    | (simp at h1 h2
       rcases h2 with h2 | rfl
       · rcases h1 with h1 | rfl
         · exact (hcl s h1 h2).elim
         · exact (hau false h2).elim
       · refine ⟨rfl, fun hlt => ?_, by simp [hsk]⟩
         cases s2 <;> simp only [StageId.pos] at hlt <;>
           first
           | omega
           | (simp only [mentions_append, hncC]; decide)
           | (simp only [mentions_append, hnx]; decide))
    | (simp_all; done)

/-- C1 (amended): in a full-install run, when a stage probes unsatisfied and
its apply() fails, the run stops at that point with overall failure: no stage
after the failing one is probed, applied or otherwise mentioned, and no
SkippedUnmetDependency outcome is ever recorded. -/
theorem C1_fail_stops_run_amended (env : Env) (st : HostSt) (s s2 : StageId)
    (h1 : Ev.probe s false ∈ (install_full env st).tr)
    (h2 : Ev.applyStage s false ∈ (install_full env st).tr) :
    (install_full env st).ok = false ∧
    (s.pos < s2.pos → mentions (install_full env st).tr s2 = false) ∧
    Ev.skipped s2 ∉ (install_full env st).tr := by
  simp only [install_full, install_wsl, check_prerequisites, probeWsl] at h1 h2 ⊢
  split_ifs at h1 h2 ⊢ <;>
    first
    | (simp at h1; done)
    | (simp at h2; done)
    | (exact C1_ubuntu env _ [Ev.probe .wsl true] s s2 (by decide) (by decide)
        (by decide) (by simp)
        (by intro s3 hx hy
            simp at hy)
        h1 h2)
    | (exact C1_ubuntu env _ [Ev.probe .wsl false, Ev.applyStage .wsl true] s s2
        (by decide) (by decide) (by decide) (by simp)
        (by intro s3 hx hy
            simp at hy)
        h1 h2)
    | (simp at h1 h2
       subst h1
       refine ⟨rfl, fun hlt => ?_, by simp⟩
       cases s2 <;> simp only [StageId.pos] at hlt <;>
         first
         | omega
         | decide
         | (simp [mentions, Ev.stageOf]))
    | (simp_all; done)

/-- C1 (counterexample): with a host where the WSL stage probes unsatisfied
and its apply() fails, the run aborts immediately with failure: no later
stage is recorded with `SkippedUnmetDependency` (no such outcome exists in
any trace), no later stage is mentioned at all, and no full per-stage report
is returned. -/
theorem C1_counterexample :
    (install_full envWslFail stEmpty).ok = false ∧
    Ev.probe .wsl false ∈ (install_full envWslFail stEmpty).tr ∧
    Ev.applyStage .wsl false ∈ (install_full envWslFail stEmpty).tr ∧
    Ev.skipped .ubuntu ∉ (install_full envWslFail stEmpty).tr ∧
    Ev.skipped .claude ∉ (install_full envWslFail stEmpty).tr ∧
    Ev.skipped .ctx ∉ (install_full envWslFail stEmpty).tr ∧
    mentions (install_full envWslFail stEmpty).tr .ubuntu = false ∧
    mentions (install_full envWslFail stEmpty).tr .claude = false ∧
    mentions (install_full envWslFail stEmpty).tr .ctx = false := by
  decide

/-- C1 (witness): the amended theorem applied at a concrete failing run. -/
theorem C1_fail_stops_run_amended_witness :
    (install_full envWslFail stEmpty).ok = false ∧
    (StageId.wsl.pos < StageId.ubuntu.pos →
      mentions (install_full envWslFail stEmpty).tr .ubuntu = false) ∧
    Ev.skipped .ubuntu ∉ (install_full envWslFail stEmpty).tr :=
  C1_fail_stops_run_amended envWslFail stEmpty .wsl .ubuntu (by decide) (by decide)

/-- Helper: apply() counts add over trace concatenation. -/
@[simp] theorem applyCount_append (a b : List Ev) (s : StageId) :
    applyCount (a ++ b) s = applyCount a s + applyCount b s := by
  simp [applyCount, List.filter_append]

/-- Helper: apply() presence distributes over trace concatenation. -/
@[simp] theorem appliedIn_append (a b : List Ev) (s : StageId) :
    appliedIn (a ++ b) s = (appliedIn a s || appliedIn b s) := by
  simp [appliedIn]

/-- Helper: apply() count of the empty trace. -/
@[simp] theorem applyCount_nil (s : StageId) : applyCount [] s = 0 := rfl

/-- Helper: probes do not change apply() counts. -/
@[simp] theorem applyCount_cons_probe (s2 : StageId) (b : Bool) (tr : List Ev)
    (s : StageId) : applyCount (Ev.probe s2 b :: tr) s = applyCount tr s := by
  simp [applyCount, List.filter_cons]

/-- Helper: reverse() events do not change apply() counts. -/
@[simp] theorem applyCount_cons_reverse (s2 : StageId) (b : Bool) (tr : List Ev)
    (s : StageId) : applyCount (Ev.reverseStage s2 b :: tr) s = applyCount tr s := by
  simp [applyCount, List.filter_cons]

/-- Helper: apply() count of a leading apply() event. -/
@[simp] theorem applyCount_cons_apply (s2 : StageId) (b : Bool) (tr : List Ev)
    (s : StageId) :
    applyCount (Ev.applyStage s2 b :: tr) s =
      (if s2 = s then 1 else 0) + applyCount tr s := by
  by_cases h : s2 = s <;> simp [applyCount, List.filter_cons, h, Nat.add_comm]

/-- Helper: apply() presence in the empty trace. -/
@[simp] theorem appliedIn_nil (s : StageId) : appliedIn [] s = false := rfl

/-- Helper: probes do not change apply() presence. -/
@[simp] theorem appliedIn_cons_probe (s2 : StageId) (b : Bool) (tr : List Ev)
    (s : StageId) : appliedIn (Ev.probe s2 b :: tr) s = appliedIn tr s := by
  simp [appliedIn]

/-- Helper: reverse() events do not change apply() presence. -/
@[simp] theorem appliedIn_cons_reverse (s2 : StageId) (b : Bool) (tr : List Ev)
    (s : StageId) : appliedIn (Ev.reverseStage s2 b :: tr) s = appliedIn tr s := by
  simp [appliedIn]

/-- Helper: apply() presence with a leading apply() event. -/
@[simp] theorem appliedIn_cons_apply (s2 : StageId) (b : Bool) (tr : List Ev)
    (s : StageId) :
    appliedIn (Ev.applyStage s2 b :: tr) s = (s2 == s || appliedIn tr s) := by
  simp [appliedIn]

/-- Helper: a stage with no apply() events in a trace has apply count zero. -/
theorem applyCount_eq_zero (tr : List Ev) (s : StageId)
    (h : ∀ b, Ev.applyStage s b ∉ tr) : applyCount tr s = 0 := by
  simp only [applyCount, List.length_eq_zero, List.filter_eq_nil_iff]
  intro e he
  cases e <;> simp
  intro hs
  subst hs
  exact h _ he

/-- Helper: a stage with no apply() events in a trace is not applied in it. -/
theorem appliedIn_eq_false (tr : List Ev) (s : StageId)
    (h : ∀ b, Ev.applyStage s b ∉ tr) : appliedIn tr s = false := by
  simp only [appliedIn, List.any_eq_false]
  intro e he
  cases e <;> simp
  intro hs
  subst hs
  exact h _ he

/-- C2 chain, context-menu level. -/
theorem C2_ctx (env : Env) (st : HostSt) (tr : List Ev)
    (hax : ∀ b, Ev.applyStage .ctx b ∉ tr) :
    (∀ e, e ∈ tr → e ∈ (installFromCtx env st tr).tr) ∧
    applyCount (installFromCtx env st tr).tr .wsl = applyCount tr .wsl ∧
    applyCount (installFromCtx env st tr).tr .ubuntu = applyCount tr .ubuntu ∧
    applyCount (installFromCtx env st tr).tr .claude = applyCount tr .claude ∧
    applyCount (installFromCtx env st tr).tr .ctx ≤ 1 ∧
    appliedIn (installFromCtx env st tr).tr .wsl = appliedIn tr .wsl ∧
    appliedIn (installFromCtx env st tr).tr .ubuntu = appliedIn tr .ubuntu ∧
    appliedIn (installFromCtx env st tr).tr .claude = appliedIn tr .claude ∧
    (appliedIn (installFromCtx env st tr).tr .ctx = true →
      Ev.probe .ctx false ∈ (installFromCtx env st tr).tr ∨
      (Ev.probe .ctx true ∈ (installFromCtx env st tr).tr ∧
        confirms env.updateAns = true)) := by
  have hz := applyCount_eq_zero tr .ctx hax
  have haf := appliedIn_eq_false tr .ctx hax
  simp only [installFromCtx, install_context_menu, uninstall_context_menu, probeCtx]
  split_ifs <;> simp_all

/-- C2 chain, second-Claude-probe level. -/
theorem C2_claude2 (env : Env) (st : HostSt) (tr : List Ev)
    (hac : ∀ b, Ev.applyStage .claude b ∉ tr)
    (hax : ∀ b, Ev.applyStage .ctx b ∉ tr) :
    (∀ e, e ∈ tr → e ∈ (installFromClaude2 env st tr).tr) ∧
    applyCount (installFromClaude2 env st tr).tr .wsl = applyCount tr .wsl ∧
    applyCount (installFromClaude2 env st tr).tr .ubuntu = applyCount tr .ubuntu ∧
    applyCount (installFromClaude2 env st tr).tr .claude ≤ 1 ∧
    applyCount (installFromClaude2 env st tr).tr .ctx ≤ 1 ∧
    appliedIn (installFromClaude2 env st tr).tr .wsl = appliedIn tr .wsl ∧
    appliedIn (installFromClaude2 env st tr).tr .ubuntu = appliedIn tr .ubuntu ∧
    (appliedIn (installFromClaude2 env st tr).tr .claude = true →
      Ev.probe .claude false ∈ (installFromClaude2 env st tr).tr) ∧
    (appliedIn (installFromClaude2 env st tr).tr .ctx = true →
      Ev.probe .ctx false ∈ (installFromClaude2 env st tr).tr ∨
      (Ev.probe .ctx true ∈ (installFromClaude2 env st tr).tr ∧
        confirms env.updateAns = true)) := by
  have hzc := applyCount_eq_zero tr .claude hac
  have hafc := appliedIn_eq_false tr .claude hac
  simp only [installFromClaude2, install_claude_code, probeClaude]
  split_ifs <;>
    first
    | (obtain ⟨m0, c1, c2, c3, c4, a1, a2, a3, i9⟩ :=
        C2_ctx env st (tr ++ [Ev.probe .claude true])
          (by intro b; simp [hax b])
       refine ⟨fun e he => m0 e (by simp [he]), ?_, ?_, ?_, c4, ?_, ?_, ?_, i9⟩
       · rw [c1]; simp
       · rw [c2]; simp
       · rw [c3]; simp [hzc]
       · rw [a1]; simp
       · rw [a2]; simp
       · intro hC
         rw [a3] at hC
         simp [hafc] at hC)
    | (obtain ⟨m0, c1, c2, c3, c4, a1, a2, a3, i9⟩ :=
        C2_ctx env _
          (tr ++ [Ev.probe .claude false, Ev.applyStage .claude true])
          (by intro b; simp [hax b])
       refine ⟨fun e he => m0 e (by simp [he]), ?_, ?_, ?_, c4, ?_, ?_,
         fun _ => m0 (Ev.probe .claude false) (by simp), i9⟩
       · rw [c1]; simp
       · rw [c2]; simp
       · rw [c3]; simp [hzc]
       · rw [a1]; simp
       · rw [a2]; simp)
    | (refine ⟨fun e he => by simp [he], ?_, ?_, ?_, ?_, ?_, ?_,
         fun _ => by simp, ?_⟩
       · simp
       · simp
       · simp [hzc]
       · simp [applyCount_eq_zero tr .ctx hax]
       · simp
       · simp
       · intro hX
         simp [appliedIn_eq_false tr .ctx hax] at hX)
    | (simp_all; done)

/-- C2 chain, first-Claude-probe level. -/
theorem C2_claude (env : Env) (st : HostSt) (tr : List Ev)
    (hac : ∀ b, Ev.applyStage .claude b ∉ tr)
    (hax : ∀ b, Ev.applyStage .ctx b ∉ tr) :
    (∀ e, e ∈ tr → e ∈ (installFromClaude env st tr).tr) ∧
    applyCount (installFromClaude env st tr).tr .wsl = applyCount tr .wsl ∧
    applyCount (installFromClaude env st tr).tr .ubuntu = applyCount tr .ubuntu ∧
    applyCount (installFromClaude env st tr).tr .claude ≤ 1 ∧
    applyCount (installFromClaude env st tr).tr .ctx ≤ 1 ∧
    appliedIn (installFromClaude env st tr).tr .wsl = appliedIn tr .wsl ∧
    appliedIn (installFromClaude env st tr).tr .ubuntu = appliedIn tr .ubuntu ∧
    (appliedIn (installFromClaude env st tr).tr .claude = true →
      Ev.probe .claude false ∈ (installFromClaude env st tr).tr) ∧
    (appliedIn (installFromClaude env st tr).tr .ctx = true →
      Ev.probe .ctx false ∈ (installFromClaude env st tr).tr ∨
      (Ev.probe .ctx true ∈ (installFromClaude env st tr).tr ∧
        confirms env.updateAns = true)) := by
  have hzc := applyCount_eq_zero tr .claude hac
  have hafc := appliedIn_eq_false tr .claude hac
  simp only [installFromClaude, setup_ubuntu_environment, probeClaude]
  split_ifs <;>
    first
    | (obtain ⟨m0, c1, c2, c3, c4, a1, a2, i8, i9⟩ :=
        C2_claude2 env st (tr ++ [Ev.probe .claude true])
          (by intro b; simp [hac b]) (by intro b; simp [hax b])
       refine ⟨fun e he => m0 e (by simp [he]), ?_, ?_, c3, c4, ?_, ?_, i8, i9⟩
       · rw [c1]; simp
       · rw [c2]; simp
       · rw [a1]; simp
       · rw [a2]; simp)
    | (obtain ⟨m0, c1, c2, c3, c4, a1, a2, i8, i9⟩ :=
        C2_claude2 env st (tr ++ [Ev.probe .claude false])
          (by intro b; simp [hac b]) (by intro b; simp [hax b])
       refine ⟨fun e he => m0 e (by simp [he]), ?_, ?_, c3, c4, ?_, ?_, i8, i9⟩
       · rw [c1]; simp
       · rw [c2]; simp
       · rw [a1]; simp
       · rw [a2]; simp)
    | (refine ⟨fun e he => by simp [he], ?_, ?_, ?_, ?_, ?_, ?_,
         fun _ => by simp, ?_⟩
       · simp
       · simp
       · simp [hzc]
       · simp [applyCount_eq_zero tr .ctx hax]
       · simp
       · simp
       · intro hX
         simp [appliedIn_eq_false tr .ctx hax] at hX)
    | (simp_all; done)

/-- C2 chain, Ubuntu level. -/
theorem C2_ubuntu (env : Env) (st : HostSt) (tr : List Ev)
    (hau : ∀ b, Ev.applyStage .ubuntu b ∉ tr)
    (hac : ∀ b, Ev.applyStage .claude b ∉ tr)
    (hax : ∀ b, Ev.applyStage .ctx b ∉ tr) :
    (∀ e, e ∈ tr → e ∈ (installFromUbuntu env st tr).tr) ∧
    applyCount (installFromUbuntu env st tr).tr .wsl = applyCount tr .wsl ∧
    applyCount (installFromUbuntu env st tr).tr .ubuntu ≤ 1 ∧
    applyCount (installFromUbuntu env st tr).tr .claude ≤ 1 ∧
    applyCount (installFromUbuntu env st tr).tr .ctx ≤ 1 ∧
    appliedIn (installFromUbuntu env st tr).tr .wsl = appliedIn tr .wsl ∧
    (appliedIn (installFromUbuntu env st tr).tr .ubuntu = true →
      Ev.probe .ubuntu false ∈ (installFromUbuntu env st tr).tr) ∧
    (appliedIn (installFromUbuntu env st tr).tr .claude = true →
      Ev.probe .claude false ∈ (installFromUbuntu env st tr).tr) ∧
    (appliedIn (installFromUbuntu env st tr).tr .ctx = true →
      Ev.probe .ctx false ∈ (installFromUbuntu env st tr).tr ∨
      (Ev.probe .ctx true ∈ (installFromUbuntu env st tr).tr ∧
        confirms env.updateAns = true)) := by
  have hzu := applyCount_eq_zero tr .ubuntu hau
  have hafu := appliedIn_eq_false tr .ubuntu hau
  simp only [installFromUbuntu, install_ubuntu, probeUbuntu]
  split_ifs <;>
    first
    | (obtain ⟨m0, c1, c2, c3, c4, a1, a2, i8, i9⟩ :=
        C2_claude env st (tr ++ [Ev.probe .ubuntu true])
          (by intro b; simp [hac b]) (by intro b; simp [hax b])
       refine ⟨fun e he => m0 e (by simp [he]), ?_, ?_, c3, c4, ?_, ?_, i8, i9⟩
       · rw [c1]; simp
       · rw [c2]; simp [hzu]
       · rw [a1]; simp
       · intro hU
         rw [a2] at hU
         simp [hafu] at hU)
    | (obtain ⟨m0, c1, c2, c3, c4, a1, a2, i8, i9⟩ :=
        C2_claude env _
          (tr ++ [Ev.probe .ubuntu false, Ev.applyStage .ubuntu true])
          (by intro b; simp [hac b]) (by intro b; simp [hax b])
       refine ⟨fun e he => m0 e (by simp [he]), ?_, ?_, c3, c4, ?_,
         fun _ => m0 (Ev.probe .ubuntu false) (by simp), i8, i9⟩
       · rw [c1]; simp
       · rw [c2]; simp [hzu]
       · rw [a1]; simp)
    | (refine ⟨fun e he => by simp [he], ?_, ?_, ?_, ?_, ?_,
         fun _ => by simp, ?_, ?_⟩
       · simp
       · simp [hzu]
       · simp [applyCount_eq_zero tr .claude hac]
       · simp [applyCount_eq_zero tr .ctx hax]
       · simp
       · intro hC
         simp [appliedIn_eq_false tr .claude hac] at hC
       · intro hX
         simp [appliedIn_eq_false tr .ctx hax] at hX)
    | (simp_all; done)

/-- C2 (amended): in a full-install run each stage's apply() is invoked at
most once; the first three stages are applied only when their probe returned
unsatisfied in the same run, while the ShellIntegration stage may also be
re-applied after a satisfied probe when the operator confirms the update
prompt. -/
theorem C2_apply_gate_amended (env : Env) (st : HostSt) :
    applyCount (install_full env st).tr .wsl ≤ 1 ∧
    applyCount (install_full env st).tr .ubuntu ≤ 1 ∧
    applyCount (install_full env st).tr .claude ≤ 1 ∧
    applyCount (install_full env st).tr .ctx ≤ 1 ∧
    (appliedIn (install_full env st).tr .wsl = true →
      Ev.probe .wsl false ∈ (install_full env st).tr) ∧
    (appliedIn (install_full env st).tr .ubuntu = true →
      Ev.probe .ubuntu false ∈ (install_full env st).tr) ∧
    (appliedIn (install_full env st).tr .claude = true →
      Ev.probe .claude false ∈ (install_full env st).tr) ∧
    (appliedIn (install_full env st).tr .ctx = true →
      Ev.probe .ctx false ∈ (install_full env st).tr ∨
      (Ev.probe .ctx true ∈ (install_full env st).tr ∧
        confirms env.updateAns = true)) := by
  simp only [install_full, install_wsl, check_prerequisites, probeWsl]
  split_ifs <;>
    first
    | (obtain ⟨m0, c1, c2, c3, c4, a1, i7, i8, i9⟩ :=
        C2_ubuntu env st [Ev.probe .wsl true]
          (by intro b; simp) (by intro b; simp) (by intro b; simp)
       refine ⟨?_, c2, c3, c4, ?_, i7, i8, i9⟩
       · rw [c1]; simp
       · intro hW
         rw [a1] at hW
         simp at hW)
    | (obtain ⟨m0, c1, c2, c3, c4, a1, i7, i8, i9⟩ :=
        C2_ubuntu env _ [Ev.probe .wsl false, Ev.applyStage .wsl true]
          (by intro b; simp) (by intro b; simp) (by intro b; simp)
       refine ⟨?_, c2, c3, c4,
         fun _ => m0 (Ev.probe .wsl false) (by simp), i7, i8, i9⟩
       · rw [c1]; simp)
    | (refine ⟨by simp, by simp, by simp, by simp, ?_, ?_, ?_, ?_⟩ <;>
        (intro hh; simp at hh) <;> done)
    | (refine ⟨by simp, by simp, by simp, by simp, fun _ => by simp,
         ?_, ?_, ?_⟩ <;> (intro hh; simp at hh) <;> done)
    | (simp_all; done)

/-- C2 (counterexample): a full-install run on a fully installed host where
the operator confirms the update prompt invokes the ShellIntegration apply()
even though its probe returned satisfied, refuting "apply() only if the probe
returned unsatisfied". -/
theorem C2_counterexample :
    appliedIn (install_full envB stFull).tr .ctx = true ∧
    Ev.probe .ctx true ∈ (install_full envB stFull).tr ∧
    Ev.probe .ctx false ∉ (install_full envB stFull).tr := by
  decide

/-- C4 (counterexample): when the elevation check fails, the runs perform no
stage work at all — the trace is empty, so no stage is recorded with the
distinct `PermissionDenied` outcome the claim requires; the refusal is only
the run-level `False` return. -/
theorem C4_counterexample :
    (install_full envPD stEmpty).tr = [] ∧
    Ev.permDenied .wsl ∉ (install_full envPD stEmpty).tr ∧
    Ev.permDenied .ctx ∉ (install_full envPD stEmpty).tr ∧
    (install_full envPD stEmpty).ok = false ∧
    (uninstall envPD stFull).tr = [] ∧
    Ev.permDenied .ctx ∉ (uninstall envPD stFull).tr ∧
    (install_context_menu_only envPD stFull).tr = [] ∧
    Ev.permDenied .ctx ∉ (install_context_menu_only envPD stFull).tr := by
  decide

/-- C4 (amended): if the elevation check returns false, every mutating mode
refuses before touching any stage: no probe, apply() or reverse() runs, no
external command is issued, the host state is unchanged, and the run returns
overall failure (exit 1); no per-stage `PermissionDenied` outcome is
recorded because the source records no per-stage outcomes at all. -/
theorem C4_permission_gate_amended (env : Env) (st : HostSt)
    (h : env.admin = false) :
    install_full env st = ⟨false, st, []⟩ ∧
    install_context_menu_only env st = ⟨false, st, []⟩ ∧
    uninstall env st = ⟨false, st, []⟩ ∧
    (mainRun .fullM env st).1 = 1 ∧
    (mainRun .contextOnlyM env st).1 = 1 ∧
    (mainRun .uninstallM env st).1 = 1 := by
  simp [install_full, install_context_menu_only, uninstall, mainRun,
    check_prerequisites, h]

/-- C4 (witness): the amended permission-gate theorem at a concrete input. -/
theorem C4_permission_gate_amended_witness :
    install_full envPD stEmpty = ⟨false, stEmpty, []⟩ ∧
    install_context_menu_only envPD stEmpty = ⟨false, stEmpty, []⟩ ∧
    uninstall envPD stEmpty = ⟨false, stEmpty, []⟩ ∧
    (mainRun .fullM envPD stEmpty).1 = 1 ∧
    (mainRun .contextOnlyM envPD stEmpty).1 = 1 ∧
    (mainRun .uninstallM envPD stEmpty).1 = 1 :=
  C4_permission_gate_amended envPD stEmpty (by decide)

/-- C5: status mode is read-only — `--status` always exits 0 and leaves the
host state unchanged, every event of the status run is a probe (no apply(),
reverse() or other mutating command), and all four stages are probed. -/
theorem C5_status_readonly (env : Env) (st : HostSt) :
    mainRun .statusM env st = (0, st, show_status st) ∧
    (∀ e ∈ show_status st, e.isProbe = true) ∧
    (∀ s : StageId, mentions (show_status st) s = true) := by
  refine ⟨rfl, ?_, ?_⟩ <;>
    (obtain ⟨w, u, c, xb, xf, l⟩ := st
     revert w u c xb xf l
     decide)

/-- C8: uninstall on a host whose ShellIntegration probe reports unsatisfied
(in an elevated run) short-circuits: no reverse() is invoked, the host state
is untouched, the run returns success, and the CLI exits 0. -/
theorem C8_uninstall_noop (env : Env) (st : HostSt)
    (h1 : check_prerequisites env = true)
    (h2 : probeCtx st = false) :
    uninstall env st = ⟨true, st, [Ev.probe .ctx false]⟩ ∧
    (mainRun .uninstallM env st).1 = 0 := by
  simp [uninstall, mainRun, h1, h2]

/-- C8 (witness): the no-op uninstall theorem at a concrete input. -/
theorem C8_uninstall_noop_witness :
    uninstall envA stEmpty = ⟨true, stEmpty, [Ev.probe .ctx false]⟩ ∧
    (mainRun .uninstallM envA stEmpty).1 = 0 :=
  C8_uninstall_noop envA stEmpty (by decide) (by decide)

/-- C9: terminal-integration-only mode (elevated) never consults the WSL or
Ubuntu probes; with the Claude probe satisfied it applies ShellIntegration;
with the Claude probe unsatisfied it applies ShellIntegration exactly when
the operator confirms, and otherwise returns failure without any apply(). -/
theorem C9_context_only (env : Env) (st : HostSt)
    (h : check_prerequisites env = true) :
    mentions (install_context_menu_only env st).tr .wsl = false ∧
    mentions (install_context_menu_only env st).tr .ubuntu = false ∧
    (probeClaude st = true →
      appliedIn (install_context_menu_only env st).tr .ctx = true) ∧
    (probeClaude st = false → confirms env.contAns = true →
      appliedIn (install_context_menu_only env st).tr .ctx = true) ∧
    (probeClaude st = false → confirms env.contAns = false →
      install_context_menu_only env st = ⟨false, st, [Ev.probe .claude false]⟩) := by
  simp only [install_context_menu_only, install_context_menu, probeClaude, h,
    if_true]
  split_ifs <;>
    simp_all [mentions, appliedIn, Ev.stageOf]

/-- C9 (witness): the terminal-integration-only theorem at a concrete input
where the Claude probe is unsatisfied and the operator confirms. -/
theorem C9_context_only_witness :
    mentions (install_context_menu_only envYes stEmpty).tr .wsl = false ∧
    mentions (install_context_menu_only envYes stEmpty).tr .ubuntu = false ∧
    (probeClaude stEmpty = true →
      appliedIn (install_context_menu_only envYes stEmpty).tr .ctx = true) ∧
    (probeClaude stEmpty = false → confirms envYes.contAns = true →
      appliedIn (install_context_menu_only envYes stEmpty).tr .ctx = true) ∧
    (probeClaude stEmpty = false → confirms envYes.contAns = false →
      install_context_menu_only envYes stEmpty =
        ⟨false, stEmpty, [Ev.probe .claude false]⟩) :=
  C9_context_only envYes stEmpty (by decide)

/-- C10: the ShellIntegration probe consults only the folder-background
registry key: it is satisfied exactly when that key is present, and in
particular reports the stage satisfied on a registry holding only that key
(sibling folder entry absent) regardless of the launcher artifact. -/
theorem C10_probe_only_bg_key :
    (∀ reg : List String, is_installed reg = true ↔ bgKeyPath ∈ reg) ∧
    is_installed [bgKeyPath] = true ∧
    folderKeyPath ∉ ([bgKeyPath] : List String) := by
  refine ⟨fun reg => ?_, by decide, by decide⟩
  simp [is_installed, openKeyOk]

/-- C7 (counterexample): a phase-1 result that exits 0 with non-empty (but
all-whitespace) stdout does not satisfy the probe when phase 2 fails: the
code tests `stdout.strip()`, not mere non-emptiness, so the claim's phase-1
condition "exit 0 with non-empty output" is not sufficient. -/
theorem C7_counterexample :
    is_claude_installed (CmdRes.ok 0 [' ']) (CmdRes.ok 1 []) = false ∧
    ([' '] : List Char) ≠ [] := by
  decide

/-- C7 (amended): the probe is the two-phase OR with phase 1 requiring exit
code 0 and stdout non-empty after stripping whitespace (non-blank); phase 2
requires exit code 0; an exception in phase 1 yields unsatisfied without
running phase 2. -/
theorem C7_two_phase_amended :
    (∀ (e1 : Nat) (o1 : List Char) (r2 : CmdRes),
      is_claude_installed (.ok e1 o1) r2 =
        ((decide (e1 = 0) && !(pyStrip o1).isEmpty) ||
          (match r2 with
            | .err => false
            | .ok e2 _ => decide (e2 = 0)))) ∧
    (∀ r2 : CmdRes, is_claude_installed .err r2 = false) := by
  refine ⟨fun e1 o1 r2 => ?_, fun r2 => rfl⟩
  by_cases h : e1 = 0 && !(pyStrip o1).isEmpty
  · simp [is_claude_installed, h]
  · cases r2 <;> simp [is_claude_installed, h]
    rw [Bool.eq_iff_iff]
    simp

/-- Helper: a pattern whose head cannot be produced by `f` from any character
accepted by `p` survives dropping a `p`-prefix: if it occurs in `l.map f` it
still occurs after the `dropWhile`. -/
theorem infix_map_dropWhile (f : Char → Char) (p : Char → Bool) (a : Char)
    (rest : List Char) (hhead : ∀ d, p d = true → f d ≠ a) :
    ∀ l : List Char, (a :: rest) <:+: l.map f →
      (a :: rest) <:+: (l.dropWhile p).map f := by
  intro l
  induction l with
  | nil => simp
  | cons c t ih =>
    intro h
    by_cases hp : p c
    · rw [List.dropWhile_cons_of_pos hp]
      rcases List.infix_cons_iff.mp (by simpa using h) with hpre | hinf
      · obtain ⟨heq, -⟩ := List.cons_prefix_cons.mp hpre
        exact absurd heq.symm (hhead c hp)
      · exact ih hinf
    · rwa [List.dropWhile_cons_of_neg hp]

/-- Helper: the stripped string is an infix of the original. -/
theorem pyStrip_infix_self (t : List Char) : pyStrip t <:+: t := by
  have h1 : rstrip (lstrip t) <+: lstrip t := by
    have h : (lstrip t).reverse.dropWhile Char.isWhitespace <:+ (lstrip t).reverse :=
      List.dropWhile_suffix _
    have h2 := List.reverse_prefix.mpr h
    simpa [rstrip] using h2
  have h3 : lstrip t <:+ t := List.dropWhile_suffix _
  exact (h1.isInfix).trans h3.isInfix

/-- Helper: no whitespace character lower-cases to the letter `u`. -/
theorem ws_toLower_ne_u (d : Char) (hd : Char.isWhitespace d = true) :
    Char.toLower d ≠ 'u' := by
  simp only [Char.isWhitespace, Bool.or_eq_true, decide_eq_true_eq] at hd
  rcases hd with ((h | h) | h) | h <;> subst h <;> decide

/-- Helper: `'ubuntu'` occurs in the lower-cased stripped listing iff it
occurs in the lower-cased unstripped listing — surrounding whitespace cannot
contribute to or break an occurrence of a whitespace-free pattern. -/
theorem ubuntu_strip_infix_iff (t : List Char) :
    ubuntuChars <:+: pyLower (pyStrip t) ↔ ubuntuChars <:+: pyLower t := by
  constructor
  · intro h
    exact h.trans ((pyStrip_infix_self t).map Char.toLower)
  · intro h
    have step1 : ubuntuChars <:+: (lstrip t).map Char.toLower :=
      infix_map_dropWhile Char.toLower Char.isWhitespace 'u'
        ['b', 'u', 'n', 't', 'u'] ws_toLower_ne_u t h
    have step2 : ubuntuChars.reverse <:+: ((lstrip t).map Char.toLower).reverse := by
      exact List.reverse_infix.mpr step1
    rw [← List.map_reverse] at step2
    have step3 : ubuntuChars.reverse <:+:
        (((lstrip t).reverse.dropWhile Char.isWhitespace).map Char.toLower) :=
      infix_map_dropWhile Char.toLower Char.isWhitespace 'u'
        ['t', 'n', 'u', 'b', 'u'] ws_toLower_ne_u (lstrip t).reverse step2
    have step4 := List.reverse_infix.mpr step3
    rw [List.reverse_reverse] at step4
    simpa [pyStrip, rstrip, pyLower, List.map_reverse] using step4

/-- C6: the GuestDistribution probe is satisfied iff the listing command
completed with exit code 0 and `'ubuntu'` occurs case-insensitively in the
NUL-stripped output; a missing tool, an exception or a non-zero exit yields
unsatisfied.  (The additional whitespace strip the code performs cannot
change the result.) -/
theorem C6_ubuntu_probe :
    (∀ (code : Nat) (out : List Char),
      is_ubuntu_installed (.ok code out) =
        (decide (code = 0) &&
          decide (ubuntuChars <:+: pyLower (removeNul out)))) ∧
    is_ubuntu_installed CmdRes.err = false := by
  refine ⟨fun code out => ?_, rfl⟩
  by_cases hc : code = 0
  · have hiff := ubuntu_strip_infix_iff (removeNul out)
    by_cases h2 : ubuntuChars <:+: pyLower (pyStrip (removeNul out))
    · simp [is_ubuntu_installed, hc, h2, hiff.mp h2]
    · have h3 : ¬ ubuntuChars <:+: pyLower (removeNul out) :=
        fun hx => h2 (hiff.mpr hx)
      simp [is_ubuntu_installed, hc, h2, h3]
  · simp [is_ubuntu_installed, hc]
